import Mathlib

/-!
Verification development for the coinwise-backend ledger service.

The definitions below are a shallow embedding of the Ledger Query &
Financial Insight subsystem:

* `src/routers/transactions.py` — filter compilation, enrichment,
  pagination (`get_my_transactions`), and the summary aggregation
  pipeline (`get_transaction_summary`);
* `src/routers/ai_insights.py` — the per-user sliding-window rate
  limiter (`check_rate_limit`), the insight cache and endpoint
  (`get_ai_insights`), and transaction aggregation
  (`aggregate_user_transactions`);
* `src/routers/gemini.py` — the model fallback dispatcher
  (`ModelManager.generate_content_with_fallback`).

Modelling conventions: instants are integer seconds (Python
`datetime` values compared with `<=`/`<` become `Int` comparisons;
`timedelta(days=1)` is `86400`); monetary amounts are `Int`;
fallible paths (`datetime.fromisoformat`, Mongo `$toObjectId`)
return `Except`; the process-global mutable dictionaries
(`insights_cache`, `user_requests`, `ModelManager.current_model_index`)
become explicit state threaded through the functions.  The upstream
Gemini call is an external black box and enters the model as an
oracle argument (`behavior` for the dispatcher, `gen` for the
insight endpoint).
-/

namespace Coinwise

/-! ## Calendar and ISO date parsing

`datetime.fromisoformat` on a `YYYY-MM-DD` string yields midnight of
that civil day.  We model instants as seconds since the civil epoch,
with the day number computed by the standard civil-calendar day count
(Gregorian, proleptic), so consecutive calendar days map to
consecutive day numbers and `+ timedelta(days=1)` is `+ 86400`. -/

def secondsPerDay : Int := 86400

def isLeapYear (y : Int) : Bool :=
  (y % 4 == 0 && y % 100 != 0) || (y % 400 == 0)

def daysInMonth (y m : Int) : Int :=
  if m == 2 then (if isLeapYear y then 29 else 28)
  else if m == 4 || m == 6 || m == 9 || m == 11 then 30
  else 31

/-- Days from the civil epoch 1970-01-01 for a Gregorian date
(civil-days algorithm; all divisions act on nonnegative operands for
the years `1..9999` accepted by `datetime.fromisoformat`). -/
def daysFromCivil (y m d : Int) : Int :=
  let y2 : Int := if m <= 2 then y - 1 else y
  let era : Int := (if 0 <= y2 then y2 else y2 - 399) / 400
  let yoe : Int := y2 - era * 400
  let mp : Int := if m > 2 then m - 3 else m + 9
  let doy : Int := (153 * mp + 2) / 5 + d - 1
  let doe : Int := yoe * 365 + yoe / 4 - yoe / 100 + doy
  era * 146097 + doe - 719468

def digitVal (c : Char) : Option Nat :=
  if c.isDigit then some (c.toNat - 48) else none

/-- Model of `datetime.fromisoformat` restricted to `YYYY-MM-DD`
input, returning the civil day number of the named calendar day
(i.e. the parsed instant is `dayNumber * 86400`, midnight).
Returns `none` exactly when Python would raise `ValueError`. -/
def parseIsoDate (s : String) : Option Int :=
  match s.toList with
  | [y1, y2, y3, y4, '-', m1, m2, '-', d1, d2] => do
    let a ← digitVal y1
    let b ← digitVal y2
    let c ← digitVal y3
    let d ← digitVal y4
    let e ← digitVal m1
    let f ← digitVal m2
    let g ← digitVal d1
    let h ← digitVal d2
    let year : Int := Int.ofNat (a * 1000 + b * 100 + c * 10 + d)
    let month : Int := Int.ofNat (e * 10 + f)
    let day : Int := Int.ofNat (g * 10 + h)
    if 1 <= year && year <= 9999 && 1 <= month && month <= 12 &&
        1 <= day && day <= daysInMonth year month then
      some (daysFromCivil year month day)
    else
      none
  | _ => none

/-- The parsed `datetime` value (seconds): midnight of the named day. -/
def parseIsoDateTimeSec (s : String) : Option Int :=
  (parseIsoDate s).map (fun d => d * secondsPerDay)

/-! ## Data model (`models/transaction.py`, `models/category.py`)

`Option` fields model values that may be `None`/absent in the stored
document; optional string fields that feed Python truthiness tests
keep the empty string distinct from `None`. -/

structure Transaction where
  txId : String
  user_id : String
  category_id : Option String
  name : String
  amount : Int
  type : String
  label : Option String
  note : Option String
  balance_after : Option String
  date : Int
  created_at : Int
deriving DecidableEq, Repr

structure Category where
  catId : String
  user_id : String
  group_id : Option String
  category_name : String
  type : String
  icon : Option String
deriving DecidableEq, Repr

structure CategoryGroup where
  groupId : String
  user_id : String
  group_name : String
  type : String
deriving DecidableEq, Repr

/-- Python truthiness of an optional string parameter: `None` and the
empty string are both falsy (`if date_from:` etc.). -/
def truthy : Option String → Bool
  | none => false
  | some s => !s.isEmpty

/-! ## Rate limiter (`ai_insights.check_rate_limit`)

The per-user list of request timestamps (the `user_requests` dict
entry for one owner).  The function first prunes timestamps at or
before `now - window`, then either rejects (length at the cap,
computing the retry-after from the oldest surviving timestamp,
appending nothing) or records `now`.  The returned list is the new
stored state in both cases — the pruned list is written back before
the cap test, exactly as in the source. -/

def checkRateLimit (now : Int) (reqs : List Int)
    (maxRequests : Nat) (windowMinutes : Int) : List Int × Option Int :=
  let cutoff := now - windowMinutes * 60
  let pruned := reqs.filter (fun t => cutoff < t)
  if maxRequests <= pruned.length then
    (pruned, some ((pruned.headD 0 + windowMinutes * 60 - now) / 60))
  else
    (pruned ++ [now], none)

/-! ## Model fallback dispatcher (`gemini.ModelManager`) -/

def modelNames : List String :=
  ["gemini-2.5-flash", "gemini-2.0-flash", "gemini-2.5-flash-lite"]

def rateLimitKeywords : List String :=
  ["429", "404", "quota", "rate limit", "resource exhausted"]

/-- Contiguous-subsequence test on character lists (Python `in` on
strings, Mongo `$regex` with a literal pattern). -/
def charSeqContains (p : List Char) : List Char → Bool
  | [] => p.isEmpty
  | c :: t => p.isPrefixOf (c :: t) || charSeqContains p t

/-- `str.lower()` as a character-list map. -/
def lowerChars (s : String) : List Char :=
  s.toList.map Char.toLower

/-- `any(keyword in error_msg for keyword in ...)` on the lowercased
error description (the keyword literals are already lowercase). -/
def isQuotaError (msg : String) : Bool :=
  rateLimitKeywords.any (fun k => charSeqContains k.toList (lowerChars msg))

/-- Outcome of one upstream generation attempt (the external AI
boundary): generated text, or a raised error with its description. -/
inductive GenResult where
  | success (text : String)
  | failure (msg : String)
deriving DecidableEq, Repr

inductive DispatchResult where
  | response (text : String)
  | allRateLimited
  | serverError (msg : String)
  | failedAfterAttempts
deriving DecidableEq, Repr

/-- The `while attempts < max_attempts` loop of
`generate_content_with_fallback`; `fuel = max_attempts - attempts`,
`idx` is `current_model_index`.  On a quota-classified error the
index advances when possible (else the all-rate-limited rejection is
raised with the index left at the last model); any other error is
re-raised immediately without advancing. -/
def generateLoop (behavior : Nat → GenResult) :
    Nat → Nat → DispatchResult × Nat
  | 0, idx => (.failedAfterAttempts, idx)
  | fuel + 1, idx =>
    match behavior idx with
    | .success t => (.response t, idx)
    | .failure m =>
      if isQuotaError m then
        if idx < modelNames.length - 1 then
          generateLoop behavior fuel (idx + 1)
        else
          (.allRateLimited, idx)
      else
        (.serverError m, idx)

/-- `generate_content_with_fallback`: `max_attempts = len(self.models)`,
starting from the sticky `current_model_index` carried over from the
previous call; the returned `Nat` is the new `current_model_index`. -/
def generateContentWithFallback (behavior : Nat → GenResult)
    (idx : Nat) : DispatchResult × Nat :=
  generateLoop behavior modelNames.length idx

/-! ## Filter compiler (`get_my_transactions`, lines 39–76)

The request's filter parameters become a match predicate.  Python
truthiness governs which filters are applied; a date bound present
and truthy is parsed with `datetime.fromisoformat` (whose failure is
*not* caught anywhere in the router — it escapes as an unhandled
`ValueError`, i.e. an unclassified internal server error), and the
upper bound is the parsed `date_to` plus one day, attached with
`$lte` (inclusive). -/

structure TxQuery where
  page : Nat
  limit : Option Nat
  type : Option String
  category_id : Option String
  date_from : Option String
  date_to : Option String
  search : Option String
  sort_by : String
  order : String
deriving DecidableEq, Repr

def emptyTxQuery : TxQuery :=
  ⟨1, none, none, none, none, none, none, "date", "desc"⟩

/-- HTTP error taxonomy at the model boundary.  The code produces
`badRequest` (explicit `HTTPException(400)`), `notFound`, and
`internalError` (any uncaught exception, which FastAPI surfaces as
HTTP 500).  `malformedFilter` is modelled from the spec: §7 requires
bad date/enum input to be rejected "with the specific field named";
no code path constructs it — it exists so theorems can compare the
code's behaviour against that taxonomy. -/
inductive ApiError where
  | badRequest (detail : String)
  | notFound (detail : String)
  | internalError (detail : String)
  | malformedFilter (field : String)
deriving DecidableEq, Repr

structure MatchConditions where
  user_id : String
  typeFilter : Option String
  categoryFilter : Option String
  dateGte : Option Int
  dateLte : Option Int
  searchFilter : Option String
deriving DecidableEq, Repr

def parseDateOrFail (s : String) : Except ApiError Int :=
  match parseIsoDateTimeSec s with
  | some v => .ok v
  | none => .error (.internalError ("Invalid isoformat string: " ++ s))

def compileMatchConditions (uid : String) (q : TxQuery) :
    Except ApiError MatchConditions :=
  match (if truthy q.date_from then (parseDateOrFail (q.date_from.getD "")).map some
         else .ok none) with
  | .error e => .error e
  | .ok dateGte =>
    match (if truthy q.date_to then
             (parseDateOrFail (q.date_to.getD "")).map (fun v => some (v + secondsPerDay))
           else .ok none) with
    | .error e => .error e
    | .ok dateLte =>
      .ok ⟨uid, if truthy q.type then q.type else none,
        if truthy q.category_id then q.category_id else none,
        dateGte, dateLte, if truthy q.search then q.search else none⟩

def dateInRange (mc : MatchConditions) (t : Int) : Bool :=
  (match mc.dateGte with | some g => decide (g <= t) | none => true) &&
  (match mc.dateLte with | some l => decide (t <= l) | none => true)

/-- Case-insensitive substring test (`$regex` with options `"i"`,
restricted to literal search strings). -/
def containsCI (pat s : String) : Bool :=
  charSeqContains (lowerChars pat) (lowerChars s)

def txMatches (mc : MatchConditions) (tx : Transaction) : Bool :=
  tx.user_id == mc.user_id &&
  (match mc.typeFilter with | some ty => tx.type == ty | none => true) &&
  (match mc.categoryFilter with | some c => tx.category_id == some c | none => true) &&
  dateInRange mc tx.date &&
  (match mc.searchFilter with
   | some s =>
     containsCI s tx.name ||
       (match tx.note with | some n => containsCI s n | none => false)
   | none => true)

/-! ## Enrichment stage (`get_my_transactions`, pipeline stages)

`$toObjectId` raises on a non-empty string that is not a valid
24-hex-digit ObjectId, failing the whole aggregation; the `$cond`
guard skips conversion only for the empty string and `null`. -/

def isObjectIdChar (c : Char) : Bool :=
  c.isDigit || (Char.ofNat 97 <= c && c <= Char.ofNat 102) ||
    (Char.ofNat 65 <= c && c <= Char.ofNat 70)

def isValidObjectId (s : String) : Bool :=
  s.length == 24 && s.toList.all isObjectIdChar

def toObjectId (s : String) : Except String String :=
  if isValidObjectId s then .ok s
  else .error ("Failed to parse objectId from string: " ++ s)

structure CategoryDetails where
  id : String
  name : String
  icon : String
  type : String
  group_id : String
  group_name : String
deriving DecidableEq, Repr

structure EnrichedTx where
  txId : String
  user_id : String
  category_id : Option String
  name : String
  amount : Int
  type : String
  label : Option String
  note : Option String
  balance_after : Option String
  date : Int
  created_at : Int
  category_details : CategoryDetails
deriving DecidableEq, Repr

/-- One entry through the `$addFields`/`$lookup`/`$unwind`/`$project`
stages: resolve the category (empty/null id ⇒ no resolution; invalid
id ⇒ aggregation error), then its group under the same rule, then
project the `$ifNull` display defaults. -/
def enrichTx (cats : List Category) (groups : List CategoryGroup)
    (tx : Transaction) : Except String EnrichedTx :=
  match (match tx.category_id with
         | none => .ok none
         | some s => if s == "" then .ok none else (toObjectId s).map some :
         Except String (Option String)) with
  | .error e => .error e
  | .ok catObjId =>
  let category := catObjId.bind (fun oid => cats.find? (fun c => c.catId == oid))
  match (match category with
         | none => .ok none
         | some c =>
           match c.group_id with
           | none => .ok none
           | some g => (toObjectId g).map some :
         Except String (Option String)) with
  | .error e => .error e
  | .ok groupObjId =>
  let grp := groupObjId.bind (fun gid => groups.find? (fun g => g.groupId == gid))
  .ok
    { txId := tx.txId
      user_id := tx.user_id
      category_id := tx.category_id
      name := tx.name
      amount := tx.amount
      type := tx.type
      label := tx.label
      note := tx.note
      balance_after := tx.balance_after
      date := tx.date
      created_at := tx.created_at
      category_details :=
        { id := tx.category_id.getD ""
          name := match category with | some c => c.category_name | none => "Others"
          icon := match category with | some c => c.icon.getD "" | none => ""
          type := match category with | some c => c.type | none => tx.type
          group_id := match category with | some c => c.group_id.getD "" | none => ""
          group_name := match grp with | some g => g.group_name | none => "Others" } }

/-! ## Sorting (`$sort` stage) -/

def sortFieldOf (sort_by : String) : String :=
  if sort_by == "date" || sort_by == "amount" || sort_by == "name" then sort_by
  else "date"

def txKeyLe (field : String) (a b : EnrichedTx) : Bool :=
  if field == "amount" then decide (a.amount <= b.amount)
  else if field == "name" then decide (a.name <= b.name)
  else decide (a.date <= b.date)

def orderedInsertB (le : α → α → Bool) (x : α) : List α → List α
  | [] => [x]
  | y :: t => if le x y then x :: y :: t else y :: orderedInsertB le x t

def insertionSortB (le : α → α → Bool) : List α → List α
  | [] => []
  | x :: t => orderedInsertB le x (insertionSortB le t)

def sortTxs (sort_by order : String) (l : List EnrichedTx) : List EnrichedTx :=
  let field := sortFieldOf sort_by
  if order == "desc" then insertionSortB (fun a b => txKeyLe field b a) l
  else insertionSortB (txKeyLe field) l

/-! ## Report pipeline and pagination (`get_my_transactions`) -/

/-- Run a fallible stage over every document, propagating the first
failure (aggregation-pipeline error semantics). -/
def mapStage (f : α → Except ε β) : List α → Except ε (List β)
  | [] => .ok []
  | x :: t =>
    match f x with
    | .error e => .error e
    | .ok y =>
      match mapStage f t with
      | .error e => .error e
      | .ok ys => .ok (y :: ys)

def basePipeline (store : List Transaction) (cats : List Category)
    (groups : List CategoryGroup) (mc : MatchConditions)
    (sort_by order : String) : Except String (List EnrichedTx) :=
  match mapStage (enrichTx cats groups) (store.filter (txMatches mc)) with
  | .error e => .error e
  | .ok enriched => .ok (sortTxs sort_by order enriched)

structure Pagination where
  page : Nat
  limit : Option Nat
  total : Nat
  total_pages : Nat
  has_next : Bool
  has_prev : Bool
deriving DecidableEq, Repr

structure TxPage where
  transactions : List EnrichedTx
  pagination : Pagination
deriving DecidableEq, Repr

/-- The report endpoint: compile the match conditions (date-parse
failure escapes as a 500), run the base pipeline (aggregation
failure likewise), then either return everything (`limit` absent)
or apply `skip = (page-1)*limit` / `limit` with the `$facet` count
taken from the same pipeline output. -/
def getMyTransactions (store : List Transaction) (cats : List Category)
    (groups : List CategoryGroup) (uid : String) (q : TxQuery) :
    Except ApiError TxPage :=
  match compileMatchConditions uid q with
  | .error e => .error e
  | .ok mc =>
  match basePipeline store cats groups mc q.sort_by q.order with
  | .error e => .error (.internalError e)
  | .ok rows =>
  match q.limit with
  | none =>
    .ok ⟨rows, ⟨1, none, rows.length, 1, false, false⟩⟩
  | some limit =>
    let skip := (q.page - 1) * limit
    let total := rows.length
    .ok ⟨(rows.drop skip).take limit,
      ⟨q.page, some limit, total, (total + limit - 1) / limit,
        decide (q.page * limit < total), decide (1 < q.page)⟩⟩

/-! ## Summary aggregator (`get_transaction_summary`)

The `$group` stage: conditional sums and counts keyed strictly on
the `type` field. -/

structure SummaryGroupResult where
  total_income : Int
  total_expense : Int
  income_count : Int
  expense_count : Int
deriving DecidableEq, Repr

def summaryGroupStep (acc : SummaryGroupResult) (tx : Transaction) :
    SummaryGroupResult :=
  { total_income := acc.total_income + (if tx.type == "income" then tx.amount else 0)
    total_expense := acc.total_expense + (if tx.type == "expense" then tx.amount else 0)
    income_count := acc.income_count + (if tx.type == "income" then 1 else 0)
    expense_count := acc.expense_count + (if tx.type == "expense" then 1 else 0) }

def summaryGroup (l : List Transaction) : SummaryGroupResult :=
  l.foldl summaryGroupStep ⟨0, 0, 0, 0⟩

def epoch2000 : Int := daysFromCivil 2000 1 1 * secondsPerDay

/-- Custom-mode window resolution (`get_transaction_summary`,
`mode == "custom"`): both dates absent is a handled 400; a missing
start defaults to 2000-01-01, a missing end to `now + 1 day`; a
present end is the parsed date plus one day.  The bounds are then
attached as `$gte`/`$lte` (both inclusive). -/
def customWindow (now : Int) (date_from date_to : Option String) :
    Except ApiError (Int × Int) :=
  if !truthy date_from && !truthy date_to then
    .error (.badRequest "date_from/date_to required for custom mode")
  else
    match (if truthy date_from then parseDateOrFail (date_from.getD "")
           else .ok epoch2000) with
    | .error e => .error e
    | .ok start =>
      match (if truthy date_to then
               (parseDateOrFail (date_to.getD "")).map (· + secondsPerDay)
             else .ok (now + secondsPerDay)) with
      | .error e => .error e
      | .ok stop => .ok (start, stop)

/-- The summary endpoint restricted to custom mode: resolve the
window, match `user_id` plus the inclusive date bounds, and run the
`$group` stage. -/
def getTransactionSummaryCustom (store : List Transaction) (uid : String)
    (now : Int) (date_from date_to : Option String) :
    Except ApiError SummaryGroupResult :=
  match customWindow now date_from date_to with
  | .error e => .error e
  | .ok (start, stop) =>
    .ok (summaryGroup (store.filter
      (fun tx => tx.user_id == uid && decide (start <= tx.date) && decide (tx.date <= stop))))

/-! ## Insight aggregation (`ai_insights.aggregate_user_transactions`)

The category pipeline groups matched entries by
`(category_info.category_name, type)` — the name being absent when
the category lookup finds nothing — accumulating `$sum: $amount` and
`$sum: 1`, then sorts groups by total descending.  Note the
`$addFields` here converts *any* string `category_id` with
`$toObjectId` (no empty-string guard), so a malformed or empty
string id fails this aggregation too. -/

structure AggKey where
  category_name : Option String
  type : String
deriving DecidableEq, Repr

structure AggGroup where
  key : AggKey
  total : Int
  count : Int
  type : String
deriving DecidableEq, Repr

def aiResolveKey (cats : List Category) (tx : Transaction) :
    Except String AggKey :=
  match (match tx.category_id with
         | some s => (toObjectId s).map some
         | none => .ok none :
         Except String (Option String)) with
  | .error e => .error e
  | .ok catObjId =>
    let category := catObjId.bind (fun oid => cats.find? (fun c => c.catId == oid))
    .ok ⟨category.map (fun c => c.category_name), tx.type⟩

/-- Fold one document into the `$group` accumulators (first-seen
group order; `$first: $type` records the type of the group's first
document, which always equals the key's type). -/
def addToGroups (k : AggKey) (amt : Int) : List AggGroup → List AggGroup
  | [] => [⟨k, amt, 1, k.type⟩]
  | g :: t =>
    if g.key == k then { g with total := g.total + amt, count := g.count + 1 } :: t
    else g :: addToGroups k amt t

def aiGroupDocs (cats : List Category) : List AggGroup → List Transaction →
    Except String (List AggGroup)
  | gs, [] => .ok gs
  | gs, tx :: rest =>
    match aiResolveKey cats tx with
    | .error e => .error e
    | .ok k => aiGroupDocs cats (addToGroups k tx.amount gs) rest

def aiCategoryResults (cats : List Category) (l : List Transaction) :
    Except String (List AggGroup) :=
  (aiGroupDocs cats [] l).map (insertionSortB (fun a b => decide (b.total <= a.total)))

/-- Lines 217–220: totals computed from the grouped results "based
on type field, not amount sign"; the expense total is wrapped in
`abs`. -/
def aiTotalIncome (gs : List AggGroup) : Int :=
  ((gs.filter (fun g => g.type == "income")).map (fun g => g.total)).sum

def aiTotalExpense (gs : List AggGroup) : Int :=
  |((gs.filter (fun g => g.type == "expense")).map (fun g => g.total)).sum|

def aiTotalTransactions (gs : List AggGroup) : Int :=
  (gs.map (fun g => g.count)).sum

/-- The match filter of `aggregate_user_transactions`: owner, an
inclusive `$gte`/`$lte` window on the raw `datetime` bounds, and an
optional exact `category_id` equality. -/
def aiMatches (uid : String) (startDate endDate : Int)
    (category : Option String) (tx : Transaction) : Bool :=
  tx.user_id == uid &&
  decide (startDate <= tx.date) && decide (tx.date <= endDate) &&
  (if truthy category then tx.category_id == category else true)

structure AggregatedData where
  total_income : Int
  total_expense : Int
  net_cash_flow : Int
  total_transactions : Int
deriving DecidableEq, Repr

/-- `aggregate_user_transactions`, restricted to the fields the
insight endpoint branches on (the savings rate, breakdown lists,
merchant lists and previous-period comparison are further pure
projections of the same grouped results and are not needed by any
claim). -/
def aggregateUserTransactions (store : List Transaction)
    (cats : List Category) (uid : String) (startDate endDate : Int)
    (category : Option String) : Except String AggregatedData :=
  match aiCategoryResults cats (store.filter (aiMatches uid startDate endDate category)) with
  | .error e => .error e
  | .ok gs =>
    .ok
      { total_income := aiTotalIncome gs
        total_expense := aiTotalExpense gs
        net_cash_flow := aiTotalIncome gs - aiTotalExpense gs
        total_transactions := aiTotalTransactions gs }

/-! ## Insight cache and endpoint (`get_ai_insights`)

The cache key is `md5(f"{user_id}:{start.date()}:{end.date()}:{category}")`;
we model the hash's preimage string (md5 of equal strings is equal,
and key identity in the model is string identity), printing the
`date()` as the civil day number `t / 86400` and `None` for an
absent category, mirroring Python's f-string rendering. -/

def dateOfInstant (t : Int) : Int := t / secondsPerDay

def cacheKey (uid : String) (startDate endDate : Int)
    (category : Option String) : String :=
  uid ++ ":" ++ toString (dateOfInstant startDate) ++ ":" ++
    toString (dateOfInstant endDate) ++ ":" ++
    (match category with | some c => c | none => "None")

/-- The in-process state touched by one owner's insight requests:
this owner's `insights_cache` entries (key, payload, stored-at) and
the owner's `user_requests` timestamp list. -/
structure InsightsState where
  cache : List (String × String × Int)
  reqs : List Int
deriving DecidableEq, Repr

def cacheLookup (key : String) (cache : List (String × String × Int)) :
    Option (String × Int) :=
  (cache.find? (fun e => e.1 == key)).map (fun e => e.2)

def cacheStore (key : String) (payload : String) (t : Int)
    (cache : List (String × String × Int)) : List (String × String × Int) :=
  (key, payload, t) :: cache.eraseP (fun e => e.1 == key)

inductive InsightsResult where
  | rateLimited (retryMinutes : Int)
  | cached (insights : String) (cache_age_minutes : Int)
  | insufficientData
  | generated (insights : String)
  | aggregationError (msg : String)
deriving DecidableEq, Repr

def cacheTTL : Int := 4 * 3600

/-- `get_ai_insights` with resolved window bounds.  Order of
operations as in the source: the rate-limit check runs *first*
(recording `now` when it passes, raising 429 when not), then the
cache lookup (a hit younger than 4 hours returns the cached payload
and its age in minutes), then aggregation, the fewer-than-3
transactions guard, and finally generation — modelled by the oracle
`gen` — whose result is stored in the cache under the key. -/
def getAiInsights (now : Int) (uid : String) (startDate endDate : Int)
    (category : Option String) (store : List Transaction)
    (cats : List Category) (gen : String) (st : InsightsState) :
    InsightsResult × InsightsState :=
  let checked := checkRateLimit now st.reqs 10 60
  match checked.2 with
  | some retry => (.rateLimited retry, { st with reqs := checked.1 })
  | none =>
    let st1 : InsightsState := { st with reqs := checked.1 }
    let key := cacheKey uid startDate endDate category
    let fresh : Option (String × Int) :=
      match cacheLookup key st1.cache with
      | some (ins, t0) => if now - t0 < cacheTTL then some (ins, t0) else none
      | none => none
    match fresh with
    | some (ins, t0) => (.cached ins ((now - t0) / 60), st1)
    | none =>
      match aggregateUserTransactions store cats uid startDate endDate category with
      | .error e => (.aggregationError e, st1)
      | .ok agg =>
        if agg.total_transactions < 3 then (.insufficientData, st1)
        else (.generated gen, { st1 with cache := cacheStore key gen now st1.cache })

/-! ## General lemmas -/

theorem ceil_mul_ge (N L : Nat) (hL : 0 < L) : N <= ((N + L - 1) / L) * L := by
  rcases Nat.eq_zero_or_pos N with h0 | hN
  · subst h0
    exact Nat.zero_le _
  · have h1 : N + L - 1 = (N - 1) + L := by omega
    rw [h1, Nat.add_div_right _ hL]
    have h4 : (N - 1) / L < (N - 1) / L + 1 := Nat.lt_succ_self _
    have h5 := (Nat.div_lt_iff_lt_mul hL).mp h4
    exact Nat.le_of_pred_lt h5

theorem flatten_pages_take (l : List α) (L : Nat) (n : Nat) :
    ((List.range n).map (fun i => (l.drop (i * L)).take L)).flatten = l.take (n * L) := by
  induction n with
  | zero => simp
  | succ n ih =>
    rw [List.range_succ, List.map_append, List.flatten_append, ih, Nat.succ_mul,
      List.take_add]
    simp

theorem flatten_pages_full (l : List α) (L : Nat) (hL : 0 < L) :
    ((List.range ((l.length + L - 1) / L)).map (fun i => (l.drop (i * L)).take L)).flatten
      = l := by
  rw [flatten_pages_take]
  exact List.take_of_length_le (ceil_mul_ge l.length L hL)

/-! ## Endpoint characterization lemmas -/

theorem getMyTransactions_ok_unbounded {store : List Transaction} {cats : List Category}
    {groups : List CategoryGroup} {uid : String} {q : TxQuery} {mc : MatchConditions}
    {rows : List EnrichedTx}
    (h1 : compileMatchConditions uid q = .ok mc)
    (h2 : basePipeline store cats groups mc q.sort_by q.order = .ok rows)
    (h3 : q.limit = none) :
    getMyTransactions store cats groups uid q =
      .ok ⟨rows, ⟨1, none, rows.length, 1, false, false⟩⟩ := by
  unfold getMyTransactions
  rw [h1]
  dsimp only
  rw [h2]
  dsimp only
  rw [h3]

theorem getMyTransactions_ok_paged {store : List Transaction} {cats : List Category}
    {groups : List CategoryGroup} {uid : String} {q : TxQuery} {mc : MatchConditions}
    {rows : List EnrichedTx} {L : Nat}
    (h1 : compileMatchConditions uid q = .ok mc)
    (h2 : basePipeline store cats groups mc q.sort_by q.order = .ok rows)
    (h3 : q.limit = some L) :
    getMyTransactions store cats groups uid q =
      .ok ⟨(rows.drop ((q.page - 1) * L)).take L,
        ⟨q.page, some L, rows.length, (rows.length + L - 1) / L,
          decide (q.page * L < rows.length), decide (1 < q.page)⟩⟩ := by
  unfold getMyTransactions
  rw [h1]
  dsimp only
  rw [h2]
  dsimp only
  rw [h3]

theorem getMyTransactions_compile_error {store : List Transaction} {cats : List Category}
    {groups : List CategoryGroup} {uid : String} {q : TxQuery} {e : ApiError}
    (h1 : compileMatchConditions uid q = .error e) :
    getMyTransactions store cats groups uid q = .error e := by
  unfold getMyTransactions
  rw [h1]

theorem getMyTransactions_pipeline_error {store : List Transaction} {cats : List Category}
    {groups : List CategoryGroup} {uid : String} {q : TxQuery} {mc : MatchConditions}
    {e : String}
    (h1 : compileMatchConditions uid q = .ok mc)
    (h2 : basePipeline store cats groups mc q.sort_by q.order = .error e) :
    getMyTransactions store cats groups uid q = .error (.internalError e) := by
  unfold getMyTransactions
  rw [h1]
  dsimp only
  rw [h2]

/-! ## Claim C4 — pagination stitching -/

/-- Rows returned for one page of the paged query (empty on an error
response). -/
def pageRows (store : List Transaction) (cats : List Category)
    (groups : List CategoryGroup) (uid : String) (q : TxQuery) (L : Nat)
    (p : Nat) : List EnrichedTx :=
  match getMyTransactions store cats groups uid { q with limit := some L, page := p } with
  | .ok pg => pg.transactions
  | .error _ => []

/-- C4: for any fixed filter set and bounded limit L, page p of the
paged query returns the slice `skip (p-1)·L, take L` of the very row
list the unbounded query returns, and concatenating pages
`1..ceil(N/L)` reproduces exactly the unbounded query's N rows, in
the same order, with no duplicates or omissions. -/
theorem C4_pagination_stitching (store : List Transaction) (cats : List Category)
    (groups : List CategoryGroup) (uid : String) (q : TxQuery) (L : Nat) (full : TxPage)
    (hL : 0 < L)
    (hfull : getMyTransactions store cats groups uid { q with limit := none } = .ok full) :
    (∀ p : Nat,
      getMyTransactions store cats groups uid { q with limit := some L, page := p } =
        .ok ⟨(full.transactions.drop ((p - 1) * L)).take L,
          ⟨p, some L, full.transactions.length,
            (full.transactions.length + L - 1) / L,
            decide (p * L < full.transactions.length), decide (1 < p)⟩⟩) ∧
    ((List.range ((full.transactions.length + L - 1) / L)).map
        (fun i => pageRows store cats groups uid q L (i + 1))).flatten
      = full.transactions := by
  have hmc0 : compileMatchConditions uid { q with limit := none } =
      compileMatchConditions uid q := rfl
  rcases h1 : compileMatchConditions uid q with e | mc
  · rw [getMyTransactions_compile_error (hmc0.trans h1)] at hfull
    exact absurd hfull (by simp)
  · rcases h2 : basePipeline store cats groups mc q.sort_by q.order with e | rows
    · rw [getMyTransactions_pipeline_error (hmc0.trans h1) h2] at hfull
      exact absurd hfull (by simp)
    · rw [getMyTransactions_ok_unbounded (hmc0.trans h1) h2 rfl] at hfull
      have hfull2 : full = ⟨rows, ⟨1, none, rows.length, 1, false, false⟩⟩ :=
        (Except.ok.injEq _ _).mp hfull.symm
      subst hfull2
      have hpage : ∀ p : Nat,
          getMyTransactions store cats groups uid { q with limit := some L, page := p } =
            .ok ⟨(rows.drop ((p - 1) * L)).take L,
              ⟨p, some L, rows.length, (rows.length + L - 1) / L,
                decide (p * L < rows.length), decide (1 < p)⟩⟩ := by
        intro p
        exact @getMyTransactions_ok_paged store cats groups uid
          { q with limit := some L, page := p } mc rows L h1 h2 rfl
      refine ⟨hpage, ?_⟩
      have hrows : ∀ i : Nat, pageRows store cats groups uid q L (i + 1) =
          (rows.drop (i * L)).take L := by
        intro i
        unfold pageRows
        rw [hpage (i + 1)]
        simp
      calc ((List.range ((rows.length + L - 1) / L)).map
              (fun i => pageRows store cats groups uid q L (i + 1))).flatten
          = ((List.range ((rows.length + L - 1) / L)).map
              (fun i => (rows.drop (i * L)).take L)).flatten := by
            congr 1
            exact List.map_congr_left (fun i _ => hrows i)
        _ = rows := flatten_pages_full rows L hL

/-! ## Claim C1 — classification strictly by kind -/

theorem summaryGroup_foldl (l : List Transaction) (acc : SummaryGroupResult) :
    l.foldl summaryGroupStep acc =
      ⟨acc.total_income + ((l.filter (fun tx => tx.type == "income")).map (fun tx => tx.amount)).sum,
       acc.total_expense + ((l.filter (fun tx => tx.type == "expense")).map (fun tx => tx.amount)).sum,
       acc.income_count + ((l.filter (fun tx => tx.type == "income")).length : Int),
       acc.expense_count + ((l.filter (fun tx => tx.type == "expense")).length : Int)⟩ := by
  induction l generalizing acc with
  | nil => simp
  | cons tx t ih =>
    rw [List.foldl_cons, ih]
    by_cases h1 : tx.type = "income" <;> by_cases h2 : tx.type = "expense"
    · rw [h1] at h2
      exact absurd h2 (by decide)
    all_goals
      simp only [summaryGroupStep, List.filter_cons, h1, h2, SummaryGroupResult.mk.injEq]
      simp [h1, h2]
      try omega

def groupsTotalBy (ty : String) (gs : List AggGroup) : Int :=
  ((gs.filter (fun g => g.type == ty)).map (fun g => g.total)).sum

def groupsCount (gs : List AggGroup) : Int :=
  (gs.map (fun g => g.count)).sum

/-- Every accumulated group records its key's type in its `type`
field (`$first: $type` equals the key component). -/
def typedKeys (gs : List AggGroup) : Prop :=
  ∀ g ∈ gs, g.type = g.key.type

theorem addToGroups_typedKeys {gs : List AggGroup} (k : AggKey) (amt : Int)
    (hinv : typedKeys gs) : typedKeys (addToGroups k amt gs) := by
  induction gs with
  | nil =>
    intro g hg
    simp only [addToGroups, List.mem_singleton] at hg
    subst hg
    rfl
  | cons g0 t ih =>
    intro g hg
    unfold addToGroups at hg
    by_cases hk : (g0.key == k) = true
    · rw [if_pos hk] at hg
      rcases List.mem_cons.mp hg with h | h
      · subst h
        exact hinv g0 (List.mem_cons_self _ _)
      · exact hinv g (List.mem_cons_of_mem _ h)
    · rw [if_neg hk] at hg
      rcases List.mem_cons.mp hg with h | h
      · subst h
        exact hinv g (List.mem_cons_self _ _)
      · exact ih (fun x hx => hinv x (List.mem_cons_of_mem _ hx)) g h

theorem addToGroups_total {gs : List AggGroup} (ty : String) (k : AggKey) (amt : Int)
    (hinv : typedKeys gs) :
    groupsTotalBy ty (addToGroups k amt gs) =
      groupsTotalBy ty gs + (if k.type == ty then amt else 0) := by
  induction gs with
  | nil =>
    by_cases h : (k.type == ty) = true <;>
      simp [addToGroups, groupsTotalBy, List.filter_cons, h]
  | cons g0 t ih =>
    have hg0 : g0.type = g0.key.type := hinv g0 (List.mem_cons_self _ _)
    have hinvt : typedKeys t := fun x hx => hinv x (List.mem_cons_of_mem _ hx)
    unfold addToGroups
    by_cases hk : (g0.key == k) = true
    · have hkey : g0.key = k := by
        exact eq_of_beq hk
      rw [if_pos hk]
      by_cases hty : (g0.type == ty) = true
      · have h2 : (k.type == ty) = true := by
          rw [← hkey, ← hg0]
          exact hty
        simp [groupsTotalBy, List.filter_cons, hty, h2]
        ring
      · have h2 : (k.type == ty) = false := by
          rw [← hkey, ← hg0]
          simpa using hty
        simp [groupsTotalBy, List.filter_cons, hty, h2]
    · rw [if_neg hk]
      by_cases hty : (g0.type == ty) = true <;>
        simp [groupsTotalBy, List.filter_cons, hty] at ih ⊢ <;>
        rw [ih hinvt] <;> ring

theorem addToGroups_count {gs : List AggGroup} (k : AggKey) (amt : Int) :
    groupsCount (addToGroups k amt gs) = groupsCount gs + 1 := by
  induction gs with
  | nil => simp [addToGroups, groupsCount]
  | cons g0 t ih =>
    unfold addToGroups
    by_cases hk : (g0.key == k) = true
    · rw [if_pos hk]
      simp [groupsCount]
      ring
    · rw [if_neg hk]
      simp [groupsCount] at ih ⊢
      rw [ih]
      ring

theorem aiResolveKey_type {cats : List Category} {tx : Transaction} {k : AggKey}
    (h : aiResolveKey cats tx = .ok k) : k.type = tx.type := by
  unfold aiResolveKey at h
  rcases h0 : (match tx.category_id with
               | some s => (toObjectId s).map some
               | none => .ok none :
               Except String (Option String)) with e | v
  · rw [h0] at h
    exact absurd h (by simp)
  · rw [h0] at h
    simp only [Except.ok.injEq] at h
    rw [← h]

theorem aiGroupDocs_spec {cats : List Category} (l : List Transaction) :
    ∀ gs gs2, typedKeys gs → aiGroupDocs cats gs l = .ok gs2 →
      typedKeys gs2 ∧
      (∀ ty, groupsTotalBy ty gs2 =
        groupsTotalBy ty gs + ((l.filter (fun tx => tx.type == ty)).map (fun tx => tx.amount)).sum) ∧
      groupsCount gs2 = groupsCount gs + (l.length : Int) := by
  induction l with
  | nil =>
    intro gs gs2 hinv h
    simp only [aiGroupDocs, Except.ok.injEq] at h
    subst h
    exact ⟨hinv, fun ty => by simp, by simp⟩
  | cons tx t ih =>
    intro gs gs2 hinv h
    unfold aiGroupDocs at h
    rcases hres : aiResolveKey cats tx with e | k
    · rw [hres] at h
      exact absurd h (by simp)
    · rw [hres] at h
      have hk : k.type = tx.type := aiResolveKey_type hres
      have hinv2 := addToGroups_typedKeys k tx.amount hinv
      obtain ⟨j1, j2, j3⟩ := ih (addToGroups k tx.amount gs) gs2 hinv2 h
      refine ⟨j1, fun ty => ?_, ?_⟩
      · rw [j2 ty, addToGroups_total ty k tx.amount hinv, List.filter_cons]
        by_cases hty : (tx.type == ty) = true
        · have : (k.type == ty) = true := by rw [hk]; exact hty
          simp [hty, this]
          ring
        · have : (k.type == ty) = false := by rw [hk]; simpa using hty
          simp [hty, this]
      · rw [j3, addToGroups_count]
        simp
        ring

theorem orderedInsertB_perm (le : α → α → Bool) (x : α) (l : List α) :
    (orderedInsertB le x l).Perm (x :: l) := by
  induction l with
  | nil => exact List.Perm.refl _
  | cons y t ih =>
    unfold orderedInsertB
    by_cases h : le x y = true
    · rw [if_pos h]
    · rw [if_neg h]
      exact (ih.cons y).trans (List.Perm.swap x y t)

theorem insertionSortB_perm (le : α → α → Bool) (l : List α) :
    (insertionSortB le l).Perm l := by
  induction l with
  | nil => exact List.Perm.refl _
  | cons x t ih =>
    unfold insertionSortB
    exact (orderedInsertB_perm le x (insertionSortB le t)).trans (ih.cons x)

theorem groupsTotalBy_perm {gs1 gs2 : List AggGroup} (ty : String)
    (h : gs1.Perm gs2) : groupsTotalBy ty gs1 = groupsTotalBy ty gs2 :=
  (((h.filter _).map _).sum_eq)

theorem groupsCount_perm {gs1 gs2 : List AggGroup}
    (h : gs1.Perm gs2) : groupsCount gs1 = groupsCount gs2 :=
  ((h.map _).sum_eq)

/-- C1: the Summary Aggregator classifies strictly by the entry's
kind: in the summary pipeline's `$group` stage, `total_income` /
`income_count` sum/count exactly the entries with `type = "income"`
and `total_expense` / `expense_count` exactly those with
`type = "expense"`, whatever the sign of the stored amounts; and in
the insight aggregator the grouped totals likewise reduce to the sum
over exactly the income entries (resp. the absolute value of the sum
over exactly the expense entries), with every matched entry counted
once, independent of amount signs. -/
theorem C1_classification_by_kind (l : List Transaction) (cats : List Category) :
    summaryGroup l =
      ⟨((l.filter (fun tx => tx.type == "income")).map (fun tx => tx.amount)).sum,
       ((l.filter (fun tx => tx.type == "expense")).map (fun tx => tx.amount)).sum,
       ((l.filter (fun tx => tx.type == "income")).length : Int),
       ((l.filter (fun tx => tx.type == "expense")).length : Int)⟩ ∧
    ∀ gs, aiCategoryResults cats l = .ok gs →
      aiTotalIncome gs =
        ((l.filter (fun tx => tx.type == "income")).map (fun tx => tx.amount)).sum ∧
      aiTotalExpense gs =
        |((l.filter (fun tx => tx.type == "expense")).map (fun tx => tx.amount)).sum| ∧
      aiTotalTransactions gs = (l.length : Int) := by
  constructor
  · rw [summaryGroup, summaryGroup_foldl]
    simp
  · intro gs h
    unfold aiCategoryResults at h
    rcases hdocs : aiGroupDocs cats [] l with e | gs0
    · rw [hdocs] at h
      exact absurd h (by simp [Except.map])
    · rw [hdocs] at h
      simp only [Except.map, Except.ok.injEq] at h
      obtain ⟨-, j2, j3⟩ := aiGroupDocs_spec l [] gs0 (fun g hg => absurd hg (by simp)) hdocs
      have hperm : gs.Perm gs0 := by
        rw [← h]
        exact insertionSortB_perm _ gs0
      have e1 : aiTotalIncome gs = groupsTotalBy "income" gs0 :=
        groupsTotalBy_perm "income" hperm
      have e2 : ((gs.filter (fun g => g.type == "expense")).map (fun g => g.total)).sum =
          groupsTotalBy "expense" gs0 :=
        groupsTotalBy_perm "expense" hperm
      have e3 : aiTotalTransactions gs = groupsCount gs0 :=
        groupsCount_perm hperm
      refine ⟨?_, ?_, ?_⟩
      · rw [e1, j2 "income"]
        simp [groupsTotalBy]
      · rw [aiTotalExpense, e2, j2 "expense"]
        simp [groupsTotalBy]
      · rw [e3, j3]
        simp [groupsCount]

def txIncomeNeg : Transaction :=
  ⟨"t1", "u", none, "Salary", -50, "income", none, none, none, 1000, 1000⟩

def txExpensePos : Transaction :=
  ⟨"t2", "u", none, "Lunch", 100, "expense", none, none, none, 2000, 2000⟩

def txListW : List Transaction := [txIncomeNeg, txExpensePos]

def gsW : List AggGroup :=
  [⟨⟨none, "expense"⟩, 100, 1, "expense"⟩, ⟨⟨none, "income"⟩, -50, 1, "income"⟩]

/-- C1 witness: a concrete two-entry ledger whose income entry has a
negative stored amount (sign and kind disagree): the totals still
classify by kind. -/
theorem C1_classification_by_kind_witness :
    summaryGroup txListW = ⟨-50, 100, 1, 1⟩ ∧
    (aiTotalIncome gsW = -50 ∧ aiTotalExpense gsW = 100 ∧ aiTotalTransactions gsW = 2) := by
  have h := C1_classification_by_kind txListW []
  constructor
  · rw [h.1]
    decide
  · obtain ⟨a, b, c⟩ := h.2 gsW rfl
    exact ⟨by rw [a]; decide, by rw [b]; decide, by rw [c]; decide⟩

/-! ## Claim C5 — sticky model fallback -/

theorem generateLoop_quota_run (behavior : Nat → GenResult) :
    ∀ (fuel i j : Nat) (t : String),
      j - i < fuel → j <= 2 → i <= j →
      (∀ k, i <= k → k < j → ∃ e, behavior k = .failure e ∧ isQuotaError e = true) →
      behavior j = .success t →
      generateLoop behavior fuel i = (.response t, j) := by
  intro fuel
  induction fuel with
  | zero =>
    intro i j t h1 h2 h3 hq hs
    exact absurd h1 (Nat.not_lt_zero _)
  | succ fuel ih =>
    intro i j t h1 h2 h3 hq hs
    rcases Nat.eq_or_lt_of_le h3 with heq | hlt
    · subst heq
      unfold generateLoop
      rw [hs]
    · obtain ⟨e, he, hqe⟩ := hq i (Nat.le_refl i) hlt
      unfold generateLoop
      rw [he]
      dsimp only
      rw [hqe]
      have hi : i < modelNames.length - 1 := by
        have : modelNames.length = 3 := rfl
        omega
      rw [if_pos rfl]
      rw [if_pos hi]
      exact ih (i + 1) j t (by omega) h2 hlt
        (fun k hk1 hk2 => hq k (by omega) hk2) hs

/-- C5: when the current backend raises a quota-signal error and some
later backend in the priority order succeeds (all backends in
between also failing with quota signals), `generate` returns that
later backend's result and leaves the sticky index on it, so every
subsequent call starts from that backend with no reset to the
primary; and an error without a quota signal fails immediately with
the index unchanged. -/
theorem C5_fallback_dispatcher (behavior : Nat → GenResult) (i j : Nat) (t : String)
    (hij : i < j) (hj : j <= 2)
    (hq : ∀ k, i <= k → k < j → ∃ e, behavior k = .failure e ∧ isQuotaError e = true)
    (hs : behavior j = .success t) :
    generateContentWithFallback behavior i = (.response t, j) ∧
    (∀ (b2 : Nat → GenResult) (t2 : String), b2 j = .success t2 →
      generateContentWithFallback b2 j = (.response t2, j)) ∧
    (∀ (b3 : Nat → GenResult) (e3 : String), b3 i = .failure e3 →
      isQuotaError e3 = false →
      generateContentWithFallback b3 i = (.serverError e3, i)) := by
  have hlen : modelNames.length = 3 := rfl
  refine ⟨?_, ?_, ?_⟩
  · unfold generateContentWithFallback
    exact generateLoop_quota_run behavior modelNames.length i j t (by omega) hj
      (Nat.le_of_lt hij) hq hs
  · intro b2 t2 h
    unfold generateContentWithFallback
    exact generateLoop_quota_run b2 modelNames.length j j t2 (by omega) hj
      (Nat.le_refl j) (fun k hk1 hk2 => absurd (Nat.lt_of_le_of_lt hk1 hk2) (by omega)) h
  · intro b3 e3 h3 hq3
    unfold generateContentWithFallback
    rw [hlen]
    unfold generateLoop
    rw [h3]
    dsimp only
    rw [hq3]
    simp

def quotaBehaviorW : Nat → GenResult := fun k =>
  if k == 0 then .failure "429 You exceeded your current quota" else .success "insight text"

/-- C5 witness: a primary that always raises a quota error and a
secondary that succeeds — the call returns the secondary's text with
the sticky index advanced to it, and a later call started from the
secondary returns its result directly. -/
theorem C5_fallback_dispatcher_witness :
    generateContentWithFallback quotaBehaviorW 0 = (.response "insight text", 1) ∧
    generateContentWithFallback quotaBehaviorW 1 = (.response "insight text", 1) := by
  have h := C5_fallback_dispatcher quotaBehaviorW 0 1 "insight text" (by decide) (by decide)
    (fun k hk1 hk2 => by
      have hk : k = 0 := by omega
      subst hk
      exact ⟨"429 You exceeded your current quota", rfl, by decide⟩)
    rfl
  exact ⟨h.1, h.2.1 quotaBehaviorW "insight text" rfl⟩

/-! ## Claim C7 — rate limiter window semantics -/

/-- C7 counterexample: ten requests recorded 59 minutes 55 seconds
ago (still inside the 60-minute window); the eleventh check is
rejected, but `int(total_seconds/60)` truncates the remaining 5
seconds to a retry-after of 0 minutes — not a positive value as the
claim states. -/
theorem C7_counterexample :
    checkRateLimit 10000 (List.replicate 10 6405) 10 60 =
      (List.replicate 10 6405, some 0) := by
  decide

theorem checkRateLimit_ok_list {now : Int} {reqs : List Int}
    (h : (checkRateLimit now reqs 10 60).2 = none) :
    (checkRateLimit now reqs 10 60).1 =
      reqs.filter (fun t => now - 3600 < t) ++ [now] := by
  have h36 : (60 : Int) * 60 = 3600 := by norm_num
  simp only [checkRateLimit, h36] at h ⊢
  by_cases hc : 10 <= (reqs.filter (fun t => decide (now - 3600 < t))).length
  · rw [if_pos hc] at h
    exact absurd h (by simp)
  · rw [if_neg hc]

/-- C7 amended: a check finding fewer than 10 in-window timestamps
accepts and appends `now` to the pruned list; a check finding 10 or
more rejects, leaving exactly the pruned in-window timestamps (no
slot consumed, but timestamps older than the window are removed),
with retry-after `⌊(oldest in-window timestamp + 60 min − now)/1 min⌋`
— always non-negative, and positive whenever at least one full
minute remains before the oldest slot expires; in particular for a
same-instant burst the 10th request passes and the 11th is rejected
with retry-after 60. -/
theorem C7_rate_limit_amended (now : Int) (reqs : List Int) :
    ((reqs.filter (fun t => now - 3600 < t)).length < 10 →
      checkRateLimit now reqs 10 60 =
        ((reqs.filter (fun t => now - 3600 < t)) ++ [now], none)) ∧
    (10 <= (reqs.filter (fun t => now - 3600 < t)).length →
      checkRateLimit now reqs 10 60 =
        (reqs.filter (fun t => now - 3600 < t),
          some (((reqs.filter (fun t => now - 3600 < t)).headD 0 + 3600 - now) / 60)) ∧
      0 <= ((reqs.filter (fun t => now - 3600 < t)).headD 0 + 3600 - now) / 60 ∧
      (60 <= (reqs.filter (fun t => now - 3600 < t)).headD 0 + 3600 - now →
        0 < ((reqs.filter (fun t => now - 3600 < t)).headD 0 + 3600 - now) / 60)) ∧
    ((checkRateLimit now (List.replicate 9 now) 10 60).2 = none ∧
      (checkRateLimit now (List.replicate 10 now) 10 60).2 = some 60) := by
  have h36 : (60 : Int) * 60 = 3600 := by norm_num
  have hp : now - 3600 < now := by omega
  refine ⟨?_, ?_, ?_, ?_⟩
  · intro h
    simp only [checkRateLimit, h36]
    rw [if_neg (by omega)]
  · intro h
    have hpos : 0 < (reqs.filter (fun t => now - 3600 < t)).headD 0 + 3600 - now := by
      rcases hl : reqs.filter (fun t => decide (now - 3600 < t)) with _ | ⟨a, tl⟩
      · rw [hl] at h
        simp at h
      · have ha : a ∈ reqs.filter (fun t => decide (now - 3600 < t)) := by
          rw [hl]
          exact List.mem_cons_self a tl
        have := of_decide_eq_true (List.mem_filter.mp ha).2
        simp only [List.headD_cons]
        omega
    refine ⟨?_, ?_, ?_⟩
    · simp only [checkRateLimit, h36]
      rw [if_pos h]
    · exact Int.ediv_nonneg (Int.le_of_lt hpos) (by norm_num)
    · intro h60
      have h1 : 1 <= ((reqs.filter (fun t => now - 3600 < t)).headD 0 + 3600 - now) / 60 :=
        (Int.le_ediv_iff_mul_le (by norm_num)).mpr (by omega)
      omega
  · simp only [checkRateLimit, h36, List.filter_replicate]
    simp [hp]
  · simp only [checkRateLimit, h36, List.filter_replicate]
    simp only [decide_eq_true_eq]
    rw [if_pos hp]
    simp only [List.length_replicate]
    rw [if_pos (by omega)]
    have hh : (List.replicate 10 now).headD 0 = now := rfl
    rw [hh]
    have hnum : now + 3600 - now = 3600 := by omega
    rw [hnum]
    norm_num

/-- C7 witness: ten requests recorded 1000 seconds ago; the next
check rejects with retry-after 43 minutes (non-negative and positive
since more than a minute remains), leaving the list unchanged. -/
theorem C7_rate_limit_amended_witness :
    checkRateLimit 10000 (List.replicate 10 9000) 10 60 =
      (List.replicate 10 9000, some 43) := by
  have h := (C7_rate_limit_amended 10000 (List.replicate 10 9000)).2.1 (by decide)
  rw [h.1]
  decide

/-! ## Claims C2 and C6 — rate limiting vs. cache, TTL -/

theorem cacheLookup_store (key v : String) (t : Int)
    (c : List (String × String × Int)) :
    cacheLookup key (cacheStore key v t c) = some (v, t) := by
  simp [cacheLookup, cacheStore]

/-- C2 counterexample: the owner has 10 in-window recorded requests
and a 500-second-old (well within TTL) cache entry under the
request's exact fingerprint; the request is nevertheless rejected
with 429 instead of being served the cached payload, because the
rate-limit check runs before the cache lookup. -/
theorem C2_counterexample :
    getAiInsights 10000 "u" 0 0 none [] [] "G"
        ⟨[("u:0:0:None", "P", 9500)], List.replicate 10 9000⟩ =
      (.rateLimited 43, ⟨[("u:0:0:None", "P", 9500)], List.replicate 10 9000⟩) ∧
    cacheLookup (cacheKey "u" 0 0 none) [("u:0:0:None", "P", 9500)] = some ("P", 9500) ∧
    10000 - 9500 < cacheTTL := by
  refine ⟨by decide, by decide, by decide⟩

/-- C2 amended: the rate-limit check gates the entire request, cache
lookup included.  With a fresh cache entry under the request's
fingerprint: if the owner's check rejects with retry `r`, the
request returns the 429 rejection (the cached payload is not
served); if the check passes, the cached payload is served but the
passing check has consumed a rate-limit slot (`now` is appended to
the owner's recorded timestamps). -/
theorem C2_rate_limit_gates_cache (now : Int) (uid : String) (s e : Int)
    (cat : Option String) (store : List Transaction) (cats : List Category)
    (gen : String) (st : InsightsState) (ins : String) (t0 : Int)
    (hhit : cacheLookup (cacheKey uid s e cat) st.cache = some (ins, t0))
    (hfresh : now - t0 < cacheTTL) :
    (∀ r, (checkRateLimit now st.reqs 10 60).2 = some r →
      getAiInsights now uid s e cat store cats gen st =
        (.rateLimited r, ⟨st.cache, (checkRateLimit now st.reqs 10 60).1⟩)) ∧
    ((checkRateLimit now st.reqs 10 60).2 = none →
      getAiInsights now uid s e cat store cats gen st =
        (.cached ins ((now - t0) / 60),
          ⟨st.cache, st.reqs.filter (fun t => now - 3600 < t) ++ [now]⟩)) := by
  constructor
  · intro r hr
    unfold getAiInsights
    dsimp only
    rw [hr]
  · intro hok
    unfold getAiInsights
    dsimp only
    rw [hok]
    dsimp only
    rw [hhit]
    dsimp only
    rw [if_pos hfresh]
    rw [checkRateLimit_ok_list hok]

/-- C2 amended witness: with no recorded requests the fresh cache
entry is served, and serving it consumed a slot; with ten recorded
requests the same state yields the 429 rejection. -/
theorem C2_rate_limit_gates_cache_witness :
    getAiInsights 10000 "u" 0 0 none [] [] "G" ⟨[("u:0:0:None", "P", 9500)], []⟩ =
      (.cached "P" 8, ⟨[("u:0:0:None", "P", 9500)], [10000]⟩) ∧
    getAiInsights 10000 "u" 0 0 none [] [] "G"
        ⟨[("u:0:0:None", "P", 9500)], List.replicate 10 9000⟩ =
      (.rateLimited 43, ⟨[("u:0:0:None", "P", 9500)], List.replicate 10 9000⟩) := by
  constructor
  · have h := (C2_rate_limit_gates_cache 10000 "u" 0 0 none [] [] "G"
      ⟨[("u:0:0:None", "P", 9500)], []⟩ "P" 9500 (by decide) (by decide)).2 (by decide)
    rw [h]
    decide
  · have h := (C2_rate_limit_gates_cache 10000 "u" 0 0 none [] [] "G"
      ⟨[("u:0:0:None", "P", 9500)], List.replicate 10 9000⟩ "P" 9500
      (by decide) (by decide)).1 43 (by decide)
    rw [h]
    decide

/-- Inversion: a request that returned `generated` passed the rate
limiter, found no fresh cache entry, aggregated successfully with at
least 3 transactions, and stored the generated payload under the
request's fingerprint. -/
theorem getAiInsights_generated_inv {now : Int} {uid : String} {s e : Int}
    {cat : Option String} {store : List Transaction} {cats : List Category}
    {gen : String} {st st2 : InsightsState}
    (h : getAiInsights now uid s e cat store cats gen st = (.generated gen, st2)) :
    ∃ agg, aggregateUserTransactions store cats uid s e cat = .ok agg ∧
      ¬agg.total_transactions < 3 ∧
      st2.cache = cacheStore (cacheKey uid s e cat) gen now st.cache := by
  unfold getAiInsights at h
  dsimp only at h
  rcases hc : (checkRateLimit now st.reqs 10 60).2 with _ | r
  case some =>
    rw [hc] at h
    simp at h
  case none =>
  rw [hc] at h
  dsimp only at h
  rcases hl : cacheLookup (cacheKey uid s e cat) st.cache with _ | ⟨ins, t0⟩
  · rw [hl] at h
    dsimp only at h
    rcases hagg : aggregateUserTransactions store cats uid s e cat with er | agg
    · rw [hagg] at h
      simp at h
    · rw [hagg] at h
      dsimp only at h
      by_cases h3 : agg.total_transactions < 3
      · rw [if_pos h3] at h
        simp at h
      · rw [if_neg h3] at h
        simp only [Prod.mk.injEq] at h
        exact ⟨agg, rfl, h3, by rw [← h.2]⟩
  · rw [hl] at h
    dsimp only at h
    by_cases hf : now - t0 < cacheTTL
    · rw [if_pos hf] at h
      simp at h
    · rw [if_neg hf] at h
      dsimp only at h
      rcases hagg : aggregateUserTransactions store cats uid s e cat with er | agg
      · rw [hagg] at h
        simp at h
      · rw [hagg] at h
        dsimp only at h
        by_cases h3 : agg.total_transactions < 3
        · rw [if_pos h3] at h
          simp at h
        · rw [if_neg h3] at h
          simp only [Prod.mk.injEq] at h
          exact ⟨agg, rfl, h3, by rw [← h.2]⟩

/-- A passing request whose fingerprint has a fresh cache entry is
served that entry with its age, leaving the cache unchanged. -/
theorem getAiInsights_hit {now : Int} {uid : String} {s e : Int}
    {cat : Option String} {store : List Transaction} {cats : List Category}
    {gen : String} {st : InsightsState} {ins : String} {t0 : Int}
    (hrl : (checkRateLimit now st.reqs 10 60).2 = none)
    (hhit : cacheLookup (cacheKey uid s e cat) st.cache = some (ins, t0))
    (hfresh : now - t0 < cacheTTL) :
    getAiInsights now uid s e cat store cats gen st =
      (.cached ins ((now - t0) / 60),
        ⟨st.cache, (checkRateLimit now st.reqs 10 60).1⟩) := by
  unfold getAiInsights
  dsimp only
  rw [hrl]
  dsimp only
  rw [hhit]
  dsimp only
  rw [if_pos hfresh]

/-- A passing request with no fresh cache entry, a successful
aggregation, and at least 3 transactions generates and stores the
payload. -/
theorem getAiInsights_miss_generated {now : Int} {uid : String} {s e : Int}
    {cat : Option String} {store : List Transaction} {cats : List Category}
    {gen : String} {st : InsightsState} {agg : AggregatedData}
    (hrl : (checkRateLimit now st.reqs 10 60).2 = none)
    (hmiss : ∀ ins t0, cacheLookup (cacheKey uid s e cat) st.cache = some (ins, t0) →
      cacheTTL <= now - t0)
    (hagg : aggregateUserTransactions store cats uid s e cat = .ok agg)
    (h3 : ¬agg.total_transactions < 3) :
    getAiInsights now uid s e cat store cats gen st =
      (.generated gen, ⟨cacheStore (cacheKey uid s e cat) gen now st.cache,
        (checkRateLimit now st.reqs 10 60).1⟩) := by
  unfold getAiInsights
  dsimp only
  rw [hrl]
  dsimp only
  rcases hl : cacheLookup (cacheKey uid s e cat) st.cache with _ | ⟨ins, t0⟩
  · dsimp only
    rw [hagg]
    dsimp only
    rw [if_neg h3]
  · dsimp only
    rw [if_neg (by have := hmiss ins t0 hl; omega)]
    dsimp only
    rw [hagg]
    dsimp only
    rw [if_neg h3]

/-- C6: two insight requests with identical owner, window bounds and
category filter address the same cache fingerprint.  After a first
request that generated and stored a payload, a second identical
request (whose rate-limit check passes) is served the stored payload
marked with its age while the entry is younger than 4 hours, and
once 4 hours have elapsed the lookup is a miss: the request
regenerates and the fingerprint is re-stored with the fresh payload
and timestamp. -/
theorem C6_cache_fingerprint_ttl (now1 now2 : Int) (uid : String) (s e : Int)
    (cat : Option String) (store : List Transaction) (cats : List Category)
    (gen gen2 : String) (st0 st1 : InsightsState)
    (h1 : getAiInsights now1 uid s e cat store cats gen st0 = (.generated gen, st1))
    (hrl : (checkRateLimit now2 st1.reqs 10 60).2 = none) :
    (now2 - now1 < cacheTTL →
      (getAiInsights now2 uid s e cat store cats gen2 st1).1 =
        .cached gen ((now2 - now1) / 60)) ∧
    (cacheTTL <= now2 - now1 →
      (getAiInsights now2 uid s e cat store cats gen2 st1).1 = .generated gen2 ∧
      cacheLookup (cacheKey uid s e cat)
          (getAiInsights now2 uid s e cat store cats gen2 st1).2.cache =
        some (gen2, now2)) := by
  obtain ⟨agg, hagg, h3, hcache⟩ := getAiInsights_generated_inv h1
  have hlook : cacheLookup (cacheKey uid s e cat) st1.cache = some (gen, now1) := by
    rw [hcache]
    exact cacheLookup_store _ _ _ _
  constructor
  · intro hfr
    rw [getAiInsights_hit hrl hlook hfr]
  · intro hstale
    have hsnd := @getAiInsights_miss_generated now2 uid s e cat store cats gen2 st1 agg hrl
      (fun ins t0 hl => by
        rw [hlook] at hl
        injection hl with hl2
        injection hl2 with ha hb
        rw [← hb]
        exact hstale)
      hagg h3
    rw [hsnd]
    exact ⟨rfl, cacheLookup_store _ _ _ _⟩

def store3 : List Transaction :=
  [⟨"a1", "u", none, "Pay", 5000, "income", none, none, none, 100, 100⟩,
   ⟨"a2", "u", none, "Food", 200, "expense", none, none, none, 200, 200⟩,
   ⟨"a3", "u", none, "Fare", 50, "expense", none, none, none, 300, 300⟩]

/-- State after a first successful generation at `now = 300000` for
owner `u`, window `[0, 200000]`, no category filter. -/
def st1W : InsightsState := ⟨[("u:0:2:None", "G", 300000)], [300000]⟩

/-- C6 witness: after a concrete first generation, an identical
request 60 seconds later is served from cache with age 1 minute,
and an identical request 14500 seconds (> 4 hours) later
regenerates. -/
theorem C6_cache_fingerprint_ttl_witness :
    (getAiInsights 300060 "u" 0 200000 none store3 [] "G2" st1W).1 = .cached "G" 1 ∧
    (getAiInsights 314500 "u" 0 200000 none store3 [] "G2" st1W).1 = .generated "G2" := by
  have hA := C6_cache_fingerprint_ttl 300000 300060 "u" 0 200000 none store3 [] "G" "G2"
    ⟨[], []⟩ st1W (by decide) (by decide)
  have hB := C6_cache_fingerprint_ttl 300000 314500 "u" 0 200000 none store3 [] "G" "G2"
    ⟨[], []⟩ st1W (by decide) (by decide)
  constructor
  · have h := hA.1 (by decide)
    rw [h]
    decide
  · exact (hB.2 (by decide)).1

/-! ## Claim C3 — the end bound is closed, not half-open -/

/-- C3 counterexample: `date_to = 2024-01-15` compiles to the bound
`$lte (2024-01-16 00:00)`, so an entry timestamped exactly at the
start of the following day (midnight of 2024-01-16 — the first
conjunct shows day 2024-01-16 is the successor day of 2024-01-15 in
the model) still satisfies the predicate, although the claim says
every entry at or after that instant is excluded. -/
theorem C3_counterexample :
    daysFromCivil 2024 1 15 + 1 = daysFromCivil 2024 1 16 ∧
    (compileMatchConditions "u" { emptyTxQuery with date_to := some "2024-01-15" }).map
        (fun mc => dateInRange mc (daysFromCivil 2024 1 16 * 86400)) = .ok true := by
  constructor
  · decide
  · rfl

/-- C3 amended: with a valid `date_to` naming day `d`, the compiled
predicate's upper bound is `$lte` at the following day's midnight
`(d+1)·86400`: every instant of day `d` satisfies it, the boundary
instant `(d+1)·86400` itself also satisfies it (the interval is
closed at the following day's start, not half-open), and instants
strictly after the boundary fail; the summary endpoint's custom-mode
window resolves to the same closed upper bound. -/
theorem C3_end_bound_closed (uid : String) (q : TxQuery) (d : Int) (mc : MatchConditions)
    (hfrom : truthy q.date_from = false)
    (hto : truthy q.date_to = true)
    (hparse : parseIsoDate (q.date_to.getD "") = some d)
    (hcomp : compileMatchConditions uid q = .ok mc) :
    mc.dateLte = some ((d + 1) * secondsPerDay) ∧
    (∀ t : Int, dateInRange mc t = decide (t <= (d + 1) * secondsPerDay)) ∧
    (∀ t : Int, d * secondsPerDay <= t → t <= (d + 1) * secondsPerDay →
      dateInRange mc t = true) ∧
    (∀ t : Int, (d + 1) * secondsPerDay < t → dateInRange mc t = false) ∧
    (∀ (now start stop : Int),
      customWindow now q.date_from q.date_to = .ok (start, stop) →
      stop = (d + 1) * secondsPerDay) := by
  have hd : d * secondsPerDay + secondsPerDay = (d + 1) * secondsPerDay := by ring
  unfold compileMatchConditions at hcomp
  rw [hfrom, hto] at hcomp
  unfold parseDateOrFail parseIsoDateTimeSec at hcomp
  rw [hparse] at hcomp
  simp [Except.map] at hcomp
  have hgte : mc.dateGte = none := by rw [← hcomp]
  have hlte : mc.dateLte = some ((d + 1) * secondsPerDay) := by
    rw [← hcomp]
    dsimp only
    rw [hd]
  have hrange : ∀ t : Int, dateInRange mc t = decide (t <= (d + 1) * secondsPerDay) := by
    intro t
    unfold dateInRange
    rw [hgte, hlte]
    simp
  refine ⟨hlte, hrange, ?_, ?_, ?_⟩
  · intro t h1 h2
    rw [hrange t]
    simpa using h2
  · intro t h1
    rw [hrange t]
    simpa using h1
  · intro now start stop hcw
    unfold customWindow at hcw
    rw [hfrom, hto] at hcw
    unfold parseDateOrFail parseIsoDateTimeSec at hcw
    rw [hparse] at hcw
    simp [Except.map] at hcw
    rw [← hcw.2, ← hd]

def mcC3W : MatchConditions := ⟨"u", none, none, none, some 1705363200, none⟩

/-- C3 witness: the compiled conditions for `date_to = 2024-01-15`
(day 19737, following midnight `19738·86400 = 1705363200`): midday of
Jan 15 is matched, the boundary midnight of Jan 16 is matched, one
second past it is not. -/
theorem C3_end_bound_closed_witness :
    dateInRange mcC3W 1705320000 = true ∧
    dateInRange mcC3W 1705363200 = true ∧
    dateInRange mcC3W 1705363201 = false := by
  have h := C3_end_bound_closed "u" { emptyTxQuery with date_to := some "2024-01-15" }
    19737 mcC3W rfl rfl (by decide) rfl
  exact ⟨h.2.2.1 1705320000 (by decide) (by decide),
    h.2.2.1 1705363200 (by decide) (by decide),
    h.2.2.2.1 1705363201 (by decide)⟩

/-! ## Claim C8 — invalid ISO dates surface as unclassified errors -/

/-- C8 counterexample: an unparsable `date_from` makes the report
query fail with the uncaught parser error surfaced as an
unclassified internal (HTTP 500) error — not a `MalformedFilter`
naming the offending field as the claim states. -/
theorem C8_counterexample :
    getMyTransactions [] [] [] "u" { emptyTxQuery with date_from := some "not-a-date" } =
      .error (.internalError "Invalid isoformat string: not-a-date") := by
  rfl

/-- C8 amended: a report query in which some truthy date parameter
is not a valid ISO date string fails with the unhandled parse
failure as an unclassified internal error, naming the string of the
first parameter to fail — the three reachable cases being an invalid
truthy `date_from` (whatever `date_to` holds), an invalid truthy
`date_to` with `date_from` absent or falsy, and an invalid truthy
`date_to` after a valid truthy `date_from`; no `MalformedFilter`
error naming the field is produced (`internalError` and
`malformedFilter` are distinct outcomes). -/
theorem C8_invalid_date_unclassified (store : List Transaction) (cats : List Category)
    (groups : List CategoryGroup) (uid : String) (q : TxQuery) (s : String)
    (h : (q.date_from = some s ∧ truthy q.date_from = true ∧ parseIsoDate s = none) ∨
      (truthy q.date_from = false ∧ q.date_to = some s ∧ truthy q.date_to = true ∧
        parseIsoDate s = none) ∨
      (∃ d, truthy q.date_from = true ∧ parseIsoDate (q.date_from.getD "") = some d ∧
        q.date_to = some s ∧ truthy q.date_to = true ∧ parseIsoDate s = none)) :
    getMyTransactions store cats groups uid q =
      .error (.internalError ("Invalid isoformat string: " ++ s)) ∧
    ∀ f : String,
      (ApiError.internalError ("Invalid isoformat string: " ++ s)) ≠ .malformedFilter f := by
  refine ⟨?_, fun f hf => ApiError.noConfusion hf⟩
  apply getMyTransactions_compile_error
  unfold compileMatchConditions
  rcases h with ⟨h1, h2, h3⟩ | ⟨h1, h2, h3, h4⟩ | ⟨d, h1, h2, h3, h4, h5⟩
  · rw [h2]
    unfold parseDateOrFail parseIsoDateTimeSec
    rw [h1]
    simp [h3, Except.map]
  · rw [h1, h3]
    unfold parseDateOrFail parseIsoDateTimeSec
    rw [h2]
    simp [h4, Except.map]
  · rw [h1, h4]
    unfold parseDateOrFail parseIsoDateTimeSec
    rw [h2, h3]
    simp [h5, Except.map]

/-- C8 witness: an invalid `date_from` on a nonempty store yields
the internal error naming its string, and so does an invalid
`date_to` following a valid `date_from`. -/
theorem C8_invalid_date_unclassified_witness :
    getMyTransactions store3 [] [] "u" { emptyTxQuery with date_from := some "2024-99-99" } =
      .error (.internalError "Invalid isoformat string: 2024-99-99") ∧
    getMyTransactions store3 [] [] "u"
        { emptyTxQuery with date_from := some "2024-01-15", date_to := some "bad-date!!" } =
      .error (.internalError "Invalid isoformat string: bad-date!!") :=
  ⟨(C8_invalid_date_unclassified store3 [] [] "u"
      { emptyTxQuery with date_from := some "2024-99-99" } "2024-99-99"
      (Or.inl ⟨rfl, rfl, by decide⟩)).1,
   (C8_invalid_date_unclassified store3 [] [] "u"
      { emptyTxQuery with date_from := some "2024-01-15", date_to := some "bad-date!!" }
      "bad-date!!"
      (Or.inr (Or.inr ⟨19737, rfl, by decide, rfl, rfl, by decide⟩))).1⟩

/-! ## Claim C9 — enrichment defaults and the malformed-id failure -/

def txBadCat : Transaction :=
  ⟨"t3", "u", some "zzz", "Dinner", 100, "expense", none, none, none, 0, 0⟩

/-- C9 counterexample: an entry whose category id is a malformed
non-empty string makes the whole report aggregation fail (Mongo's
`$toObjectId` raises), instead of rendering the entry with the
"Others" default as the claim states for malformed ids. -/
theorem C9_counterexample :
    getMyTransactions [txBadCat] [] [] "u" emptyTxQuery =
      .error (.internalError "Failed to parse objectId from string: zzz") := by
  rfl

def enrichedWith (tx : Transaction) (cd : CategoryDetails) : EnrichedTx :=
  ⟨tx.txId, tx.user_id, tx.category_id, tx.name, tx.amount, tx.type, tx.label, tx.note,
    tx.balance_after, tx.date, tx.created_at, cd⟩

/-- C9 amended: an entry whose category id is absent (null or the
empty string) skips resolution and renders `category_details.name =
"Others"` with the kind falling back to the entry's own kind; a
well-formed id that references no existing category renders the same
defaults; a resolved category whose group is missing renders
`group_name = "Others"`; in each of these cases the entry is neither
dropped nor an error raised.  But an entry whose category id is a
malformed non-empty string fails the aggregation with an error. -/
theorem C9_enrichment_defaults (cats : List Category) (groups : List CategoryGroup)
    (tx : Transaction) :
    (tx.category_id = none ∨ tx.category_id = some "" →
      enrichTx cats groups tx =
        .ok (enrichedWith tx ⟨"", "Others", "", tx.type, "", "Others"⟩)) ∧
    (∀ s, tx.category_id = some s → isValidObjectId s = true →
      cats.find? (fun c => c.catId == s) = none →
      enrichTx cats groups tx =
        .ok (enrichedWith tx ⟨s, "Others", "", tx.type, "", "Others"⟩)) ∧
    (∀ s c g, tx.category_id = some s → isValidObjectId s = true →
      cats.find? (fun c2 => c2.catId == s) = some c → c.group_id = some g →
      isValidObjectId g = true → groups.find? (fun gr => gr.groupId == g) = none →
      enrichTx cats groups tx =
        .ok (enrichedWith tx ⟨s, c.category_name, c.icon.getD "", c.type, g, "Others"⟩)) ∧
    (∀ s, tx.category_id = some s → s.isEmpty = false → isValidObjectId s = false →
      enrichTx cats groups tx =
        .error ("Failed to parse objectId from string: " ++ s)) := by
  refine ⟨?_, ?_, ?_, ?_⟩
  · intro h
    rcases h with h | h <;>
      · unfold enrichTx enrichedWith
        rw [h]
        rfl
  · intro s hs hvalid hfind
    have hne : (s == "") = false := by
      rw [beq_eq_false_iff_ne]
      intro h0
      rw [h0] at hvalid
      exact absurd hvalid (by decide)
    unfold enrichTx toObjectId
    rw [hs]
    simp [hne, hvalid, hfind, Except.map, enrichedWith, hs]
  · intro s c g hs hvalid hfind hg hgvalid hgfind
    have hne : (s == "") = false := by
      rw [beq_eq_false_iff_ne]
      intro h0
      rw [h0] at hvalid
      exact absurd hvalid (by decide)
    unfold enrichTx toObjectId
    rw [hs]
    simp [hne, hvalid, hfind, hg, hgvalid, hgfind, Except.map, enrichedWith, hs]
  · intro s hs hempty hinvalid
    have hne : (s == "") = false := by
      rw [beq_eq_false_iff_ne]
      intro h0
      rw [h0] at hempty
      exact absurd hempty (by decide)
    unfold enrichTx toObjectId
    rw [hs]
    simp [hne, hinvalid, Except.map]

def catW : Category :=
  ⟨"aaaaaaaaaaaaaaaaaaaaaaaa", "u", some "bbbbbbbbbbbbbbbbbbbbbbbb", "Food", "expense",
    some "F"⟩

def txDangling : Transaction :=
  ⟨"t5", "u", some "cccccccccccccccccccccccc", "Snack", 70, "expense", none, none, none, 0, 0⟩

def txWithCat : Transaction :=
  ⟨"t6", "u", some "aaaaaaaaaaaaaaaaaaaaaaaa", "Meal", 90, "expense", none, none, none, 0, 0⟩

/-- C9 witness: an absent id, a well-formed dangling id, and a
resolved category with a dangling group each render the graceful
defaults. -/
theorem C9_enrichment_defaults_witness :
    enrichTx [] [] txIncomeNeg =
      .ok (enrichedWith txIncomeNeg ⟨"", "Others", "", "income", "", "Others"⟩) ∧
    enrichTx [catW] [] txDangling =
      .ok (enrichedWith txDangling
        ⟨"cccccccccccccccccccccccc", "Others", "", "expense", "", "Others"⟩) ∧
    enrichTx [catW] [] txWithCat =
      .ok (enrichedWith txWithCat
        ⟨"aaaaaaaaaaaaaaaaaaaaaaaa", "Food", "F", "expense", "bbbbbbbbbbbbbbbbbbbbbbbb",
          "Others"⟩) :=
  ⟨(C9_enrichment_defaults [] [] txIncomeNeg).1 (Or.inl rfl),
   (C9_enrichment_defaults [catW] [] txDangling).2.1 "cccccccccccccccccccccccc" rfl
     (by decide) (by decide),
   (C9_enrichment_defaults [catW] [] txWithCat).2.2.1 "aaaaaaaaaaaaaaaaaaaaaaaa" catW
     "bbbbbbbbbbbbbbbbbbbbbbbb" rfl (by decide) (by decide) rfl (by decide) rfl⟩

/-! ## Claim C10 — day-granular cache fingerprints. -/

def aggStoreC10 : List Transaction :=
  [⟨"t4", "u", none, "Midday", 100, "income", none, none, none, 50000, 0⟩]

/-- C10: the cache fingerprint depends only on the civil days of the
window bounds (`start.date()` / `end.date()`): any two bound values
within the same calendar days give the identical fingerprint — while
the aggregation itself uses the full instants, so two requests
sharing a fingerprint can have different summaries, as the concrete
second conjunct exhibits (an entry at midday falls inside one window
and outside the other, both ending on civil day 0). -/
theorem C10_fingerprint_day_granularity :
    (∀ (uid : String) (cat : Option String) (s1 s2 e1 e2 : Int),
      dateOfInstant s1 = dateOfInstant s2 → dateOfInstant e1 = dateOfInstant e2 →
      cacheKey uid s1 e1 cat = cacheKey uid s2 e2 cat) ∧
    (cacheKey "u" 0 43200 none = cacheKey "u" 0 86399 none ∧
      aggregateUserTransactions aggStoreC10 [] "u" 0 43200 none ≠
        aggregateUserTransactions aggStoreC10 [] "u" 0 86399 none) := by
  refine ⟨?_, rfl, ?_⟩
  · intro uid cat s1 s2 e1 e2 h1 h2
    unfold cacheKey
    rw [h1, h2]
  · intro hcontra
    have h1 : aggregateUserTransactions aggStoreC10 [] "u" 0 43200 none =
        .ok ⟨0, 0, 0, 0⟩ := rfl
    have h2 : aggregateUserTransactions aggStoreC10 [] "u" 0 86399 none =
        .ok ⟨100, 0, 100, 1⟩ := rfl
    rw [h1, h2] at hcontra
    simp at hcontra

/-- C10 witness: two windows whose bounds differ only in time of day
share one fingerprint. -/
theorem C10_fingerprint_day_granularity_witness :
    cacheKey "w" 100 200000 (some "c") = cacheKey "w" 86399 172801 (some "c") :=
  C10_fingerprint_day_granularity.1 "w" (some "c") 100 86399 200000 172801
    (by decide) (by decide)

def enrichedStore3 : List EnrichedTx :=
  [enrichedWith ⟨"a3", "u", none, "Fare", 50, "expense", none, none, none, 300, 300⟩
      ⟨"", "Others", "", "expense", "", "Others"⟩,
   enrichedWith ⟨"a2", "u", none, "Food", 200, "expense", none, none, none, 200, 200⟩
      ⟨"", "Others", "", "expense", "", "Others"⟩,
   enrichedWith ⟨"a1", "u", none, "Pay", 5000, "income", none, none, none, 100, 100⟩
      ⟨"", "Others", "", "income", "", "Others"⟩]

def fullPageW : TxPage := ⟨enrichedStore3, ⟨1, none, 3, 1, false, false⟩⟩

/-- C4 witness: a three-entry store paged with limit 2 — the two
pages stitch back into the unbounded result. -/
theorem C4_pagination_stitching_witness :
    getMyTransactions store3 [] [] "u" { emptyTxQuery with limit := none } =
      .ok fullPageW ∧
    ((List.range ((fullPageW.transactions.length + 2 - 1) / 2)).map
        (fun i => pageRows store3 [] [] "u" emptyTxQuery 2 (i + 1))).flatten =
      fullPageW.transactions := by
  have hfull : getMyTransactions store3 [] [] "u" { emptyTxQuery with limit := none } =
      .ok fullPageW := rfl
  exact ⟨hfull,
    (C4_pagination_stitching store3 [] [] "u" emptyTxQuery 2 fullPageW (by decide) hfull).2⟩

end Coinwise
